import Mathlib

/-!
Verification of the YELLCOP moderation core (src/main.go) against its
specification.  The Go functions `isYell`, `checkMessage`, `checkHistory` and
`randomMessage` are embedded shallowly: strings are Lean strings, the
process-global random draws (`rand.Intn`, `rand.Shuffle`) are explicit `pick`
parameters, and run-time panics are modelled as `none` results.
-/

namespace YellCop

/-- The whitespace class of the Go regexp escape inside a character class
(the pattern `\:[^:\s]+\:` of `emojiRE`): tab, newline, form feed, carriage
return and space. -/
def reSpace (c : Char) : Bool :=
  c = '\t' || c = '\n' || c = '\x0c' || c = '\r' || c = ' '

/-- A character allowed in the body of an emoji shortcode: anything but a
colon or regexp whitespace (the class `[^:\s]` of `emojiRE`). -/
def emojiBody (c : Char) : Bool :=
  !(c = ':') && !(reSpace c)

/-- One scanning step of `emojiRE.ReplaceAllString(s, "")` with pattern
`\:[^:\s]+\:`: Go finds leftmost non-overlapping matches (a colon, a maximal
nonempty run of non-colon non-space characters, a closing colon) and deletes
them; the scan resumes after the closing colon.  The fuel argument starts at
the length of the list; every step consumes at least one character, so the
fuel never runs out on reachable inputs. -/
def emojiStripAux : Nat → List Char → List Char
  | 0, l => l
  | _ + 1, [] => []
  | fuel + 1, c :: rest =>
    if c = ':' then
      match rest.takeWhile emojiBody, rest.dropWhile emojiBody with
      | _ :: _, ':' :: after => emojiStripAux fuel after
      | _, _ => c :: emojiStripAux fuel rest
    else c :: emojiStripAux fuel rest

/-- `emojiRE.ReplaceAllString(s, "")` from `isYell`: delete every substring
matching the emoji-shortcode pattern. -/
def emojiStrip (s : String) : String :=
  ⟨emojiStripAux s.toList.length s.toList⟩

/-- The word-character class `\w` of the Go regexp `https?://\w+`:
ASCII letters, digits and underscore. -/
def isWordChar (c : Char) : Bool :=
  c.isAlphanum || c = '_'

/-- Does the URL pattern `https?://\w+` match starting exactly at the head of
the list? -/
def matchURLAt : List Char → Bool
  | 'h' :: 't' :: 't' :: 'p' :: rest =>
    match rest with
    | 's' :: ':' :: '/' :: '/' :: c :: _ => isWordChar c
    | ':' :: '/' :: '/' :: c :: _ => isWordChar c
    | _ => false
  | _ => false

/-- Scan for a match of `https?://\w+` at any position. -/
def urlMatchAux : List Char → Bool
  | [] => false
  | c :: rest => matchURLAt (c :: rest) || urlMatchAux rest

/-- `urlRE.MatchString(s)` from `isYell`: does `https?://\w+` match anywhere
in the string? -/
def urlMatch (s : String) : Bool :=
  urlMatchAux s.toList

/-- Modelled from the spec: step 3 of the Yell Classifier decodes HTML
entities ("Decode HTML entities in the remaining text (e.g. `&amp;` → `&`)").
The source delegates to Go's `html.UnescapeString`, a standard-library
function outside this repository; its full named-entity table is not
reproduced here.  This model covers the common named entities listed in
`entityTable`. -/
def entityTable : List (List Char × Char) :=
  [(['a', 'm', 'p'], '&'), (['l', 't'], '<'), (['g', 't'], '>'),
   (['q', 'u', 'o', 't'], '"'), (['a', 'p', 'o', 's'], '\x27'),
   (['n', 'b', 's', 'p'], '\xA0')]

/-- The numeric value of a decimal digit string. -/
def decDigits (l : List Char) : Nat :=
  l.foldl (fun a c => a * 10 + (c.toNat - 48)) 0

/-- Try to parse one character reference right after a `&`; returns the
decoded character and how many characters after the `&` were consumed.
Decimal numeric references (`&#65;`) and the named entities of `entityTable`
(with their closing semicolon) are recognised. -/
def tryEntity (l : List Char) : Option (Char × Nat) :=
  match l with
  | '#' :: rest =>
    let digits := rest.takeWhile Char.isDigit
    match digits, rest.dropWhile Char.isDigit with
    | _ :: _, ';' :: _ =>
      let v := decDigits digits
      some (if h : v.isValidChar then Char.ofNatAux v h else '\uFFFD',
            digits.length + 2)
    | _, _ => none
  | _ =>
    (entityTable.filter (fun p => (p.1 ++ [';']).isPrefixOf l)).head?.map
      (fun p => (p.2, p.1.length + 1))

/-- Scanning loop of the entity decoder: at each `&` try to parse a character
reference; on success emit the decoded character and resume after it,
otherwise keep the `&` literally.  Fuel as in `emojiStripAux`. -/
def unescapeAux : Nat → List Char → List Char
  | 0, l => l
  | _ + 1, [] => []
  | fuel + 1, c :: rest =>
    if c = '&' then
      match tryEntity rest with
      | some (ch, n) => ch :: unescapeAux fuel (rest.drop n)
      | none => '&' :: unescapeAux fuel rest
    else c :: unescapeAux fuel rest

/-- `html.UnescapeString` as used by `isYell` (see `entityTable` for the
modelling boundary); text containing no `&` is returned unchanged. -/
def htmlUnescape (s : String) : String :=
  ⟨unescapeAux s.toList.length s.toList⟩

/-- `strings.ToUpper` restricted to the ASCII range: each lowercase ASCII
letter is replaced by its uppercase form.  The full Unicode case tables of
Go's `unicode` package are outside this repository; every token in the spec's
examples is ASCII. -/
def goToUpper (s : String) : String :=
  ⟨s.toList.map Char.toUpper⟩

/-- `isYell` from src/main.go lines 183-191: strip emoji shortcodes, exempt
URLs, decode HTML entities, then classify as yelling iff the text equals its
own uppercasing. -/
def isYell (s : String) : Bool :=
  let s1 := emojiStrip s
  if urlMatch s1 then
    true
  else
    let s2 := htmlUnescape s1
    goToUpper s2 == s2

/-- The Unicode white-space code points recognised by `unicode.IsSpace`,
which `strings.Fields` splits on. -/
def goIsSpace (c : Char) : Bool :=
  c = '\t' || c = '\n' || c = '\x0B' || c = '\x0C' || c = '\r' || c = ' ' ||
  c = '\x85' || c = '\xA0' || c = '\u1680' ||
  ('\u2000' ≤ c && c ≤ '\u200A') ||
  c = '\u2028' || c = '\u2029' || c = '\u202F' || c = '\u205F' || c = '\u3000'

/-- Accumulator pass of `strings.Fields`: split around maximal runs of white
space, yielding only nonempty tokens. -/
def fieldsAux : List Char → List Char → List (List Char)
  | [], acc => if acc.isEmpty then [] else [acc.reverse]
  | c :: rest, acc =>
    if goIsSpace c then
      if acc.isEmpty then fieldsAux rest [] else acc.reverse :: fieldsAux rest []
    else fieldsAux rest (c :: acc)

/-- `strings.Fields(msg)` from `checkMessage`. -/
def fields (s : String) : List String :=
  (fieldsAux s.toList []).map (fun l => ⟨l⟩)

/-- `strings.Contains(s, sub)`: does `sub` occur as a contiguous substring of
`s`?  Scans every suffix for a prefix match. -/
def containsAux (sub : List Char) : List Char → Bool
  | [] => sub.isEmpty
  | c :: t => sub.isPrefixOf (c :: t) || containsAux sub t

/-- `strings.Contains` as used by the skip-phrase check of `checkMessage`. -/
def containsStr (s sub : String) : Bool :=
  containsAux sub.toList s.toList

/-- The package-global `skipMessages` list of src/main.go lines 26-41: Slack
system notices that must never be moderated. -/
def skipMessages : List String :=
  ["departure cancelled",
   "departure removal report",
   "has joined the channel",
   "has joined the group",
   "has left the channel",
   "renamed the channel from",
   "set the channel purpose",
   "set the channel topic",
   "set the channel\x27s purpose",
   "set the channel\x27s topic",
   "set up a reminder",
   "started a call",
   "this content can\x27t be displayed",
   "this message was deleted"]

/-- `randomMessage(haystack)` = `haystack[rand.Intn(len(haystack))]`; the
random draw is the explicit `pick` parameter reduced modulo the length, and
`none` models the run-time abort of `rand.Intn(0)` on an empty list. -/
def randomMessage (haystack : List String) (pick : Nat) : Option String :=
  haystack.get? (pick % haystack.length)

/-- The number of whitespace-delimited tokens of `msg` that the Yell
Classifier rejects (the `count` variable of `checkMessage`). -/
def nonYellCount (msg : String) : Nat :=
  ((fields msg).filter (fun w => !isYell w)).length

/-- `checkMessage` from src/main.go lines 162-181.  The returned pair is the
Go `(string, bool)` result: the template text and the kick flag; `none`
models the abort inside `randomMessage` on an empty template list. -/
def checkMessage (threshold : Int) (warnings failures : List String)
    (pick : Nat) (msg : String) : Option (String × Bool) :=
  if skipMessages.any (fun m => containsStr msg m) then
    some ("", false)
  else if (nonYellCount msg : Int) > threshold then
    (randomMessage failures pick).map (fun t => (t, true))
  else if 0 < nonYellCount msg then
    (randomMessage warnings pick).map (fun t => (t, false))
  else
    some ("", false)

/-- Verdict severity determined by the branch structure of `checkMessage`
lines 175-180, with None as 0, Warn as 1 and Kick as 2. -/
def verdictSeverity (threshold : Int) (count : Nat) : Nat :=
  if (count : Int) > threshold then 2 else if 0 < count then 1 else 0

/-- `checkHistory` from src/main.go lines 231-269, after the roster has been
fetched.  The shuffle followed by taking element 0 is modelled by selecting
the element at index `pick % roster.length`; `bot` is `GetUserInfo(u).IsBot`
and `activity u` the `SearchMessages` total count for `u` in the window (the
external calls are assumed to succeed).  The outer `Option` is the panic
marker: `none` models the index-out-of-range abort of `chUsers[0]` on an
empty roster.  The inner value is the action taken: `some u` means the
inactivity warning is posted about `u`, `none` means no action. -/
def checkHistory (roster : List String) (pick : Nat) (bot : String → Bool)
    (activity : String → Nat) : Option (Option String) :=
  match roster.get? (pick % roster.length) with
  | none => none
  | some uID =>
    some (if bot uID then none
          else if activity uID = 0 then some uID else none)

end YellCop

namespace YellCop

/-! ### Helper lemmas -/

theorem randomMessage_mem (l : List String) (p : Nat) (h : l ≠ []) :
    ∃ t ∈ l, randomMessage l p = some t := by
  have hlen : 0 < l.length := List.length_pos.mpr h
  have hi : p % l.length < l.length := Nat.mod_lt _ hlen
  exact ⟨l.get ⟨p % l.length, hi⟩, List.get_mem l _ hi, List.get?_eq_get hi⟩

theorem map_char_fix_iff {f : Char → Char} {l : List Char} :
    l.map f = l ↔ ∀ c ∈ l, f c = c := by
  induction l with
  | nil => simp
  | cons a t ih => simp [List.cons.injEq, ih, List.forall_mem_cons]

theorem isLower_iff_toNat {c : Char} :
    c.isLower = true ↔ 97 ≤ c.toNat ∧ c.toNat ≤ 122 := by
  simp [Char.isLower, Char.toNat, UInt32.le_def, BitVec.le_def, UInt32.toNat]

theorem toNat_ofNat_valid {n : Nat} (h : n.isValidChar) :
    (Char.ofNat n).toNat = n := by
  unfold Char.ofNat
  rw [dif_pos h]
  simp [Char.ofNatAux, Char.toNat, UInt32.toNat]

theorem toUpper_eq_of_not_lower {c : Char} (h : c.isLower = false) :
    Char.toUpper c = c := by
  unfold Char.toUpper
  rw [if_neg]
  intro hb
  rw [isLower_iff_toNat.mpr hb] at h
  cases h

theorem toUpper_ne_of_lower {c : Char} (h : c.isLower = true) :
    Char.toUpper c ≠ c := by
  have hb := isLower_iff_toNat.mp h
  unfold Char.toUpper
  rw [if_pos hb]
  intro heq
  have hv : (c.toNat - 32).isValidChar := Or.inl (by omega)
  have := congrArg Char.toNat heq
  rw [toNat_ofNat_valid hv] at this
  omega

theorem goToUpper_eq_iff {s : String} :
    goToUpper s = s ↔ ∀ c ∈ s.toList, Char.toUpper c = c := by
  constructor
  · intro h
    exact map_char_fix_iff.mp (congrArg String.data h)
  · intro h
    apply String.ext
    exact map_char_fix_iff.mpr h

end YellCop

namespace YellCop

/-! ### Claim theorems -/

/-- Claim C1: for every message text not containing any configured skip
phrase, `checkMessage` counts the whitespace tokens the Yell Classifier
rejects and returns a Kick verdict with a template from the kick list if the
count exceeds the threshold, else a Warn verdict with a template from the
warn list if the count is positive, else the None verdict (empty template,
no kick). -/
theorem checkMessage_policy (th : Int) (w f : List String) (p : Nat)
    (msg : String)
    (hskip : skipMessages.any (fun m => containsStr msg m) = false) :
    ((nonYellCount msg : Int) > th → f ≠ [] →
      ∃ t ∈ f, checkMessage th w f p msg = some (t, true)) ∧
    (¬ (nonYellCount msg : Int) > th → 0 < nonYellCount msg → w ≠ [] →
      ∃ t ∈ w, checkMessage th w f p msg = some (t, false)) ∧
    (¬ (nonYellCount msg : Int) > th → nonYellCount msg = 0 →
      checkMessage th w f p msg = some ("", false)) := by
  refine ⟨?_, ?_, ?_⟩
  · intro hgt hf
    obtain ⟨t, htmem, ht⟩ := randomMessage_mem f p hf
    exact ⟨t, htmem, by simp [checkMessage, hskip, hgt, ht]⟩
  · intro hle hpos hw
    obtain ⟨t, htmem, ht⟩ := randomMessage_mem w p hw
    exact ⟨t, htmem, by simp [checkMessage, hskip, hle, hpos, ht]⟩
  · intro hle h0
    rw [h0] at hle
    simp [checkMessage, hskip, hle, h0]
    omega

theorem checkMessage_policy_witness :
    skipMessages.any (fun m => containsStr ("talk talk") m) = false ∧
    ∃ t ∈ (["K"] : List String),
      checkMessage 1 ["W"] ["K"] 0 ("talk talk") = some (t, true) :=
  ⟨by decide,
    (checkMessage_policy 1 ["W"] ["K"] 0 ("talk talk") (by decide)).1
      (by decide) (by decide)⟩

/-- Claim C2: for every token whose emoji-stripped text the URL pattern does
not match, the Yell Classifier answers true exactly when the HTML-decoded
text equals its own uppercasing; tokens whose decoded text has no letters at
all pass, and the empty token is classified as yelling. -/
theorem isYell_upper_iff :
    (∀ s : String, urlMatch (emojiStrip s) = false →
      (isYell s = true ↔
        goToUpper (htmlUnescape (emojiStrip s)) = htmlUnescape (emojiStrip s))) ∧
    (∀ s : String, urlMatch (emojiStrip s) = false →
      (htmlUnescape (emojiStrip s)).toList.all (fun c => !c.isAlpha) = true →
      isYell s = true) ∧
    isYell "" = true := by
  have h1 : ∀ s : String, urlMatch (emojiStrip s) = false →
      (isYell s = true ↔
        goToUpper (htmlUnescape (emojiStrip s)) = htmlUnescape (emojiStrip s)) := by
    intro s h
    simp [isYell, h]
  refine ⟨h1, ?_, by decide⟩
  intro s h hall
  rw [h1 s h, goToUpper_eq_iff]
  intro c hc
  have := List.all_eq_true.mp hall c hc
  apply toUpper_eq_of_not_lower
  simp [Char.isAlpha] at this
  exact this.2

theorem isYell_upper_iff_witness :
    urlMatch (emojiStrip ("YELL")) = false ∧
    (isYell ("YELL") = true ↔
      goToUpper (htmlUnescape (emojiStrip ("YELL"))) =
        htmlUnescape (emojiStrip ("YELL"))) :=
  ⟨by decide, isYell_upper_iff.1 ("YELL") (by decide)⟩

/-- Claim C3: any message containing a configured skip phrase as a
case-sensitive substring gets the None verdict from `checkMessage`, whatever
the threshold, the template lists and the rest of the message. -/
theorem checkMessage_skip (th : Int) (w f : List String) (p : Nat)
    (msg sp : String) (h1 : sp ∈ skipMessages)
    (h2 : containsStr msg sp = true) :
    checkMessage th w f p msg = some ("", false) := by
  have ha : skipMessages.any (fun m => containsStr msg m) = true :=
    List.any_eq_true.mpr ⟨sp, h1, h2⟩
  simp [checkMessage, ha]

theorem checkMessage_skip_witness :
    ("has joined the channel") ∈ skipMessages ∧
    containsStr ("felix has joined the channel") ("has joined the channel") = true ∧
    checkMessage 1 ["W"] ["K"] 0 ("felix has joined the channel") =
      some ("", false) :=
  ⟨by decide, by decide,
    checkMessage_skip 1 ["W"] ["K"] 0 ("felix has joined the channel")
      ("has joined the channel") (by decide) (by decide)⟩

end YellCop

namespace YellCop

/-- Claim C4 (code evaluated at the failing input): on an empty channel
roster the inactivity audit hits the index-out-of-range abort of
`h.chUsers[0]` — the model returns the abort marker `none` — for every random
draw, bot predicate and activity mapping, contradicting the requirement that
the core never crashes on an empty or partial roster. -/
theorem checkHistory_empty_roster_aborts :
    ∀ (pick : Nat) (bot : String → Bool) (activity : String → Nat),
      checkHistory [] pick bot activity = none := by
  intro pick bot activity
  rfl

/-- Claim C5: an audit invocation remediates at most one member (the result
carries at most one user), and only a member whose activity count is zero;
with roster A, B, C and activity A ↦ 3 the remediated member is B or C,
never A. -/
theorem checkHistory_candidate :
    (∀ (roster : List String) (pick : Nat) (bot : String → Bool)
        (activity : String → Nat) (u : String),
      checkHistory roster pick bot activity = some (some u) →
      u ∈ roster ∧ activity u = 0) ∧
    (∀ (pick : Nat) (bot : String → Bool) (u : String),
      checkHistory ["A", "B", "C"] pick bot
        (fun v => if v = "A" then 3 else 0) = some (some u) →
      u = "B" ∨ u = "C") := by
  have h1 : ∀ (roster : List String) (pick : Nat) (bot : String → Bool)
      (activity : String → Nat) (u : String),
      checkHistory roster pick bot activity = some (some u) →
      u ∈ roster ∧ activity u = 0 := by
    intro roster pick bot activity u h
    unfold checkHistory at h
    cases hg : roster.get? (pick % roster.length) with
    | none => rw [hg] at h; cases h
    | some v =>
      rw [hg] at h
      have hmem := List.get?_mem hg
      by_cases hb : bot v = true
      · simp [hb] at h
      · by_cases ha : activity v = 0
        · simp [hb, ha] at h
          exact ⟨h ▸ hmem, h ▸ ha⟩
        · simp [hb, ha] at h
  refine ⟨h1, ?_⟩
  intro pick bot u h
  obtain ⟨hmem, hact⟩ := h1 _ _ _ _ _ h
  simp at hmem
  rcases hmem with rfl | rfl | rfl
  · simp at hact
  · exact Or.inl rfl
  · exact Or.inr rfl

theorem checkHistory_candidate_witness :
    checkHistory ["A", "B", "C"] 1 (fun _ => false)
      (fun v => if v = "A" then 3 else 0) = some (some ("B")) ∧
    (("B" : String) = "B" ∨ ("B" : String) = "C") :=
  ⟨by decide, checkHistory_candidate.2 1 (fun _ => false) ("B") (by decide)⟩

/-- Claim C6: every token whose emoji-stripped text matches the bare-URL
pattern is classified as yelling, and the message "THIS HAS A
http://example.com" with threshold 1 gets the None verdict from
`checkMessage` whatever the template lists. -/
theorem isYell_url :
    (∀ s : String, urlMatch (emojiStrip s) = true → isYell s = true) ∧
    (∀ (w f : List String) (p : Nat),
      checkMessage 1 w f p ("THIS HAS A http://example.com") =
        some ("", false)) := by
  constructor
  · intro s h
    simp [isYell, h]
  · intro w f p
    have h1 : skipMessages.any
        (fun m => containsStr ("THIS HAS A http://example.com") m) = false := by
      decide
    have h2 : nonYellCount ("THIS HAS A http://example.com") = 0 := by decide
    simp [checkMessage, h1, h2]

theorem isYell_url_witness :
    urlMatch (emojiStrip ("http://abc")) = true ∧
    isYell ("http://abc") = true ∧
    checkMessage 1 [] [] 0 ("THIS HAS A http://example.com") =
      some ("", false) :=
  ⟨by decide, isYell_url.1 ("http://abc") (by decide), isYell_url.2 [] [] 0⟩

end YellCop

namespace YellCop

/-- Claim C7 fails as stated: the token ":smile:" contains lowercase letters
and the URL pattern does not match it (neither raw nor stripped), yet the
Yell Classifier answers true, because the whole token is an emoji shortcode
and is stripped before the case check. -/
theorem isYell_lowercase_counterexample :
    (":smile:").toList.any Char.isLower = true ∧
    urlMatch (emojiStrip (":smile:")) = false ∧
    urlMatch (":smile:") = false ∧
    isYell (":smile:") = true := by
  decide

/-- Claim C7 (amended): for every token whose text remaining after
emoji-shortcode stripping and HTML-entity decoding contains at least one
lowercase letter, and whose stripped text the URL pattern does not match,
the Yell Classifier returns false. -/
theorem isYell_false_of_decoded_lowercase (s : String)
    (hurl : urlMatch (emojiStrip s) = false)
    (hlow : (htmlUnescape (emojiStrip s)).toList.any Char.isLower = true) :
    isYell s = false := by
  simp only [isYell, hurl, Bool.false_eq_true, if_false]
  rw [beq_eq_false_iff_ne]
  intro heq
  obtain ⟨c, hcmem, hc⟩ := List.any_eq_true.mp hlow
  exact toUpper_ne_of_lower hc (goToUpper_eq_iff.mp heq c hcmem)

theorem isYell_false_of_decoded_lowercase_witness :
    urlMatch (emojiStrip ("talk")) = false ∧
    (htmlUnescape (emojiStrip ("talk"))).toList.any Char.isLower = true ∧
    isYell ("talk") = false :=
  ⟨by decide, by decide,
    isYell_false_of_decoded_lowercase ("talk") (by decide) (by decide)⟩

/-- Claim C8 fails as stated: stripping emoji shortcodes is not idempotent —
deleting the shortcode ":a:" from "::a:b:" creates the fresh shortcode ":b:"
— so removing all shortcode matches before classification can change the
result. -/
theorem emojiStrip_sensitivity_counterexample :
    isYell (emojiStrip ("::a:b:")) ≠ isYell ("::a:b:") := by
  decide

/-- Claim C8 (amended): for every token on which shortcode stripping is
idempotent (stripping the stripped text changes nothing), removing the
shortcode substrings before classification does not change the classifier's
answer; in particular the classifier treats "hello:smile:" like "hello". -/
theorem isYell_emojiStrip_idem :
    (∀ s : String, emojiStrip (emojiStrip s) = emojiStrip s →
      isYell (emojiStrip s) = isYell s) ∧
    isYell ("hello:smile:") = isYell ("hello") := by
  constructor
  · intro s h
    simp only [isYell, h]
  · decide

theorem isYell_emojiStrip_idem_witness :
    emojiStrip (emojiStrip ("hello:smile:")) = emojiStrip ("hello:smile:") ∧
    isYell (emojiStrip ("hello:smile:")) = isYell ("hello:smile:") :=
  ⟨by decide, isYell_emojiStrip_idem.1 ("hello:smile:") (by decide)⟩

/-- Claim C9: the Moderation Policy is monotone in the non-yelling token
count: for a fixed threshold, a larger count never gets a less severe verdict
under None < Warn < Kick, and `verdictSeverity` is exactly the branch
selector of `checkMessage`. -/
theorem verdict_monotone :
    (∀ (th : Int) (c1 c2 : Nat), c1 ≤ c2 →
      verdictSeverity th c1 ≤ verdictSeverity th c2) ∧
    (∀ (th : Int) (w f : List String) (p : Nat) (msg : String),
      checkMessage th w f p msg =
        if skipMessages.any (fun m => containsStr msg m) then some ("", false)
        else if verdictSeverity th (nonYellCount msg) = 2 then
          (randomMessage f p).map (fun t => (t, true))
        else if verdictSeverity th (nonYellCount msg) = 1 then
          (randomMessage w p).map (fun t => (t, false))
        else some ("", false)) := by
  constructor
  · intro th c1 c2 h
    unfold verdictSeverity
    split_ifs <;> omega
  · intro th w f p msg
    by_cases hs : skipMessages.any (fun m => containsStr msg m) = true
    · simp [checkMessage, hs]
    · rw [Bool.not_eq_true] at hs
      by_cases hgt : (nonYellCount msg : Int) > th
      · simp [checkMessage, verdictSeverity, hs, hgt]
      · by_cases hpos : 0 < nonYellCount msg
        · simp [checkMessage, verdictSeverity, hs, hgt, hpos]
        · simp [checkMessage, verdictSeverity, hs, hgt, hpos]

theorem verdict_monotone_witness :
    (1 : Nat) ≤ 2 ∧ verdictSeverity 1 1 ≤ verdictSeverity 1 2 :=
  ⟨by decide, verdict_monotone.1 1 1 2 (by decide)⟩

/-- Claim C10: when the member selected by an audit invocation is a bot
account, `checkHistory` takes no action — no inactivity warning is posted and
no member is removed — whatever the member's activity count. -/
theorem checkHistory_bot_no_action (roster : List String) (pick : Nat)
    (bot : String → Bool) (activity : String → Nat) (u : String)
    (hu : roster.get? (pick % roster.length) = some u)
    (hb : bot u = true) :
    checkHistory roster pick bot activity = some none := by
  unfold checkHistory
  rw [hu]
  simp [hb]

theorem checkHistory_bot_no_action_witness :
    List.get? (["U"] : List String) (0 % 1) = some ("U") ∧
    checkHistory ["U"] 0 (fun _ => true) (fun _ => 0) = some none :=
  ⟨by decide,
    checkHistory_bot_no_action ["U"] 0 (fun _ => true) (fun _ => 0) ("U")
      (by decide) rfl⟩

end YellCop
